/-
Verification of the dialogue-state and ranking core of the
twilio-conversation-relay-gmaps repository.

The Python modules `src/session.py` and `src/place_search.py` are shallowly
embedded below.  Python dictionaries with string keys become association
lists `List (String × Option String)` with first-match lookup; Python's
truthiness tests on optional strings (`if value:`) are made explicit; HTTP
calls made by the search orchestrator are abstracted into an `HttpWorld` of
oracle responses, where `Except.error` models an exception raised by
`raise_for_status` (an uncaught `Except.error` result of the orchestrator
models an exception propagating to its caller); floating-point ratings and
scores are modelled with `Rat`, exact for the halves the scorer uses.
-/
import Mathlib

/-! ## Embedding of `src/session.py` -/

/-- Embedding of `FORCE_NEW_SEARCH_PHRASES` from session.py (a Python set; only
membership/`any` is ever used, so a list is a faithful model). -/
def FORCE_NEW_SEARCH_PHRASES : List String :=
  ["search again", "another search", "more options", "different options",
   "show me more", "new search", "something else", "find more"]

/-- Embedding of `REQUIRED_FIELDS` from session.py. -/
def REQUIRED_FIELDS : List String :=
  ["cuisine", "location", "budget", "travel_mode", "travel_minutes"]

/-- The seven keys iterated by `signature()`:
`REQUIRED_FIELDS + ("open_now", "open_until")`. -/
def SIG_FIELDS : List String := REQUIRED_FIELDS ++ ["open_now", "open_until"]

/-- A Python dict `Dict[str, Optional[str]]`, as an association list. -/
def Slots : Type := List (String × Option String)

/-- Python `d.get(key)`: first-match lookup, `None` when the key is missing
(the stored value may itself be `None`, hence the flattening). -/
def slotGet : Slots → String → Option String
  | [], _ => none
  | (k', v) :: rest, k => if k' = k then v else slotGet rest k

/-- Python `d[key] = value` on a dict with this association-list model:
replace the first binding of the key, or append a fresh binding. -/
def dictSet : Slots → String → Option String → Slots
  | [], k, v => [(k, v)]
  | (k', v') :: rest, k, v =>
      if k' = k then (k, v) :: rest else (k', v') :: dictSet rest k v

/-- Truthiness of an optional string slot value (`if value:` /
`if not value:` in Python): `None` and `""` are falsy. -/
def pyTruthy : Option String → Bool
  | none => false
  | some v => decide (v ≠ "")

/-- The guard of `update_slots`: `value is not None and value != ""`. -/
def updWritten (v : Option String) : Bool :=
  match v with
  | none => false
  | some s => decide (s ≠ "")

/-- One iteration of the `update_slots` loop body. -/
def applyUpdate (s : Slots) (kv : String × Option String) : Slots :=
  if updWritten kv.2 then dictSet s kv.1 kv.2 else s

/-- Embedding of `ConversationSession.update_slots` from session.py, on the slot dict. -/
def update_slots (s : Slots) (updates : List (String × Option String)) : Slots :=
  updates.foldl applyUpdate s

/-- Embedding of `ConversationSession.missing_slots`:
`[key for key in REQUIRED_FIELDS if not self.slots.get(key)]`. -/
def missing_slots (s : Slots) : List String :=
  REQUIRED_FIELDS.filter (fun k => !pyTruthy (slotGet s k))

/-- Embedding of `ConversationSession.ready_for_search`: `not self.missing_slots`. -/
def ready_for_search (s : Slots) : Bool :=
  missing_slots s |>.isEmpty

/-- Python `str.lower()`, character by character. -/
def pyLower (s : String) : String :=
  String.mk (s.data.map Char.toLower)

/-- Python `str.strip()`: drop whitespace from both ends. -/
def pyStrip (s : String) : String :=
  String.mk ((((s.data.dropWhile Char.isWhitespace).reverse).dropWhile
    Char.isWhitespace).reverse)

/-- The value `signature()` would record for one key: the slot value when
truthy, stripped then lowercased; `none` when the slot is absent/falsy. -/
def normSlot (s : Slots) (k : String) : Option String :=
  match slotGet s k with
  | none => none
  | some v => if v = "" then none else some (pyLower (pyStrip v))

/-- The `signature()` loop: walk the keys in order, appending a pair for
each truthy value. -/
def sigFold (g : String → Option String) : List String → List (String × String)
  | [] => []
  | k :: ks =>
      match g k with
      | some nv => (k, nv) :: sigFold g ks
      | none => sigFold g ks

/-- Embedding of `ConversationSession.signature` from session.py. -/
def sessionSignature (s : Slots) : List (String × String) :=
  sigFold (normSlot s) SIG_FIELDS

/-- Contiguous-substring occurrence on character lists. -/
def charsContain (needle : List Char) : List Char → Bool
  | [] => needle.isEmpty
  | c :: rest => needle.isPrefixOf (c :: rest) || charsContain needle rest

/-- Python's substring test `sub in s`. -/
def strContains (s sub : String) : Bool :=
  charsContain sub.data s.data

/-- The `ConversationSession` dataclass from session.py. -/
structure ConversationSession where
  call_sid : String
  caller_number : Option String
  slots : Slots
  history : List (String × String)
  last_search_signature : Option (List (String × String))
  last_prompt_text : Option String
  rcs_sent : Bool

/-- The dataclass's default slot dict: all seven keys present, all `None`. -/
def defaultSlots : Slots :=
  [("cuisine", none), ("location", none), ("budget", none),
   ("travel_mode", none), ("travel_minutes", none),
   ("open_now", none), ("open_until", none)]

/-- Embedding of `ConversationSession.append`. -/
def ConversationSession.appendHistory (sess : ConversationSession)
    (role content : String) : ConversationSession :=
  { sess with history := sess.history ++ [(role, content)] }

/-- Embedding of `ConversationSession.update_slots` at the session level. -/
def ConversationSession.updateSlots (sess : ConversationSession)
    (updates : List (String × Option String)) : ConversationSession :=
  { sess with slots := update_slots sess.slots updates }

/-- Embedding of `ConversationSession.mark_search`. -/
def ConversationSession.markSearch (sess : ConversationSession)
    (normalized_prompt : String) : ConversationSession :=
  { sess with
      last_search_signature := some (sessionSignature sess.slots)
      last_prompt_text := some normalized_prompt }

/-- Embedding of `ConversationSession.should_skip_search` from session.py.
`not signature` is the empty-tuple test; `normalized_prompt and any(...)`
short-circuits on the empty prompt; `self.last_search_signature or ()`
falls back to the empty tuple. -/
def ConversationSession.should_skip_search (sess : ConversationSession)
    (normalized_prompt : String) : Bool :=
  let s := sessionSignature sess.slots
  if s = [] then false
  else if normalized_prompt ≠ "" ∧
      FORCE_NEW_SEARCH_PHRASES.any (fun p => strContains normalized_prompt p) then
    false
  else decide (s = sess.last_search_signature.getD [])

/-! ## Embedding of `src/place_search.py` -/

/-- A travel estimate: the dict `{"distance_text": ..., "duration_text": ...}`
built by `compute_travel_duration`. -/
structure Travel where
  distance_text : String
  duration_text : String
deriving DecidableEq, Repr

/-- One raw provider place, holding the fields the code reads.  An `Option`
field models a possibly-missing dict key (for `displayName`, missing key and
missing `"text"` subkey are collapsed into one `none`). -/
structure RawPlace where
  displayName : Option String
  formattedAddress : Option String
  rating : Option Rat
  userRatingCount : Option Int
  priceLevel : Option String
  location : Option (Option Rat × Option Rat)
deriving DecidableEq, Repr

/-- The normalized candidate dict built by the `rank_places` loop. -/
structure RankedPlace where
  name : String
  address : String
  rating : Rat
  user_rating_count : Int
  price_level : Option String
  score : Rat
  travel : Option Travel
deriving DecidableEq, Repr

/-- The `locationBias` circle built by `build_location_bias`. -/
structure LocationBias where
  lat : Rat
  lng : Rat
  radius : Int
deriving DecidableEq, Repr

/-- Embedding of `build_location_bias` from place_search.py. -/
def build_location_bias (lat lng : Rat) (travel_mode : String) (minutes : Int) :
    LocationBias :=
  let radius : Int :=
    if travel_mode = "walking" then min (minutes * 80) 5000
    else min (minutes * 400) 10000
  { lat := lat, lng := lng, radius := radius }

/-- Embedding of `to_price_levels` from place_search.py (`if not budget` plus a
four-entry `mapping.get`, defaulting to `None`). -/
def to_price_levels (budget : Option String) : Option (List String) :=
  match budget with
  | none => none
  | some b =>
      if b = "" then none
      else if b = "$" then some ["PRICE_LEVEL_INEXPENSIVE"]
      else if b = "$$" then some ["PRICE_LEVEL_MODERATE"]
      else if b = "$$$" then some ["PRICE_LEVEL_EXPENSIVE"]
      else if b = "$$$$" then some ["PRICE_LEVEL_VERY_EXPENSIVE"]
      else none

/-- The body of the `places:searchText` request assembled by
`search_restaurants`; `openNow = true` models the presence of the
`"openNow": True` entry. -/
structure SearchBody where
  textQuery : String
  includedType : String
  maxResultCount : Nat
  strictTypeFiltering : Bool
  rankPreference : String
  priceLevels : Option (List String)
  locationBias : Option LocationBias
  openNow : Bool
deriving DecidableEq, Repr

/-- The dict returned by `search_restaurants`.  The failure dicts carry
`message`; the success dict carries `search_id` and `voice_response`. -/
structure SearchOutcome where
  success : Bool
  results : List RankedPlace
  message : Option String
  search_id : Option String
  voice_response : Option String
deriving DecidableEq, Repr

/-- How one guarded HTTP interaction of place_search.py can fail.  The
`try` blocks there wrap only `response.raise_for_status()` and catch only
`requests.HTTPError`, so two channels must be distinguished:
`httpStatus` is `raise_for_status` raising `requests.HTTPError` inside the
guarded `try` (caught); `uncaught` is every other exception — the
`requests.post`/`requests.get` call itself raising (timeout, connection
error), `response.json()` raising, or any non-`HTTPError` exception — which
propagates past the `except` clause. -/
inductive PyErr where
  | httpStatus
  | uncaught
deriving DecidableEq, Repr

/-- The oracle responses of the three external HTTP endpoints plus the
generated search id.  `geocode`'s error is `Unit` because the geocoding call
sits in no `try` at all — every failure there propagates; its payload is the
`(lat, lng)` pair of `geocode_location` (with `(none, none)` for an empty
result list).  `searchResp` is a function of the request body actually sent
and `dist` gives the parsed distance-matrix answer for the i-th candidate
(`.ok none` models a malformed or non-`OK` element); both fail through the
two `PyErr` channels. -/
structure HttpWorld where
  geocode : Except Unit (Option Rat × Option Rat)
  searchResp : SearchBody → Except PyErr (List RawPlace)
  dist : Nat → Except PyErr (Option Travel)
  newId : String

/-- Embedding of `compute_travel_duration` from place_search.py: `None`
destination coordinates short-circuit before any call; a caught
`requests.HTTPError` from `raise_for_status` yields `None`; any other
exception (`requests.get` itself or `response.json()` raising) propagates,
modelled by `.error ()`; otherwise the parsed element (or `None` on
malformed/non-OK data). -/
def compute_travel_duration (resp : Except PyErr (Option Travel))
    (dest_lat dest_lng : Option Rat) : Except Unit (Option Travel) :=
  match dest_lat, dest_lng with
  | some _, some _ =>
      match resp with
      | .error .httpStatus => .ok none
      | .error .uncaught => .error ()
      | .ok d => .ok d
  | _, _ => .ok none

/-- Python truthiness of an optional float coordinate: `None` and `0.0`
are falsy. -/
def pyTruthyCoord : Option Rat → Bool
  | none => false
  | some x => decide (x ≠ 0)

/-- Embedding of `rating = place.get("rating") or 0` (`0.0` and a missing key both
give `0`). -/
def ratingOf (p : RawPlace) : Rat := p.rating.getD 0

/-- Embedding of `reviews = place.get("userRatingCount") or 0`. -/
def reviewsOf (p : RawPlace) : Int := p.userRatingCount.getD 0

/-- The score accumulation of the `rank_places` loop. -/
def scorePlace (p : RawPlace) : Rat :=
  let score := ratingOf p * 2
  if reviewsOf p > 100 then score + 1/2
  else if reviewsOf p < 10 then score - 1/2
  else score

/-- The `place_copy` dict of the `rank_places` loop. -/
def mkRanked (p : RawPlace) (travel : Option Travel) : RankedPlace :=
  { name := p.displayName.getD "Unknown"
    address := p.formattedAddress.getD "Address unavailable"
    rating := ratingOf p
    user_rating_count := reviewsOf p
    price_level := p.priceLevel
    score := scorePlace p
    travel := travel }

/-- The body of the `rank_places` loop: build each `place_copy`, attaching a
travel estimate only when the caller coordinates are truthy and the place has
a `location` entry.  `i` counts the distance-matrix calls issued so far.  An
uncaught exception inside `compute_travel_duration` aborts the loop and
propagates (`.error`). -/
def processPlaces (dist : Nat → Except PyErr (Option Travel))
    (lat lng : Option Rat) : Nat → List RawPlace → Except Unit (List RankedPlace)
  | _, [] => .ok []
  | i, p :: rest =>
      let travelRes : Except Unit (Option Travel) :=
        if pyTruthyCoord lat && pyTruthyCoord lng then
          match p.location with
          | some (dla, dln) => compute_travel_duration (dist i) dla dln
          | none => .ok none
        else .ok none
      match travelRes with
      | .error e => .error e
      | .ok travel =>
          match processPlaces dist lat lng (i + 1) rest with
          | .error e => .error e
          | .ok l => .ok (mkRanked p travel :: l)

/-- Embedding of `ranked.sort(key=..., reverse=True)` is a stable descending sort by
score; this ordered insert places `x` before the first element whose score
does not exceed `x`'s, so earlier elements win ties. -/
def insertDesc (x : RankedPlace) : List RankedPlace → List RankedPlace
  | [] => [x]
  | y :: l => if y.score ≤ x.score then x :: y :: l else y :: insertDesc x l

/-- Stable descending insertion sort by score. -/
def sortDesc : List RankedPlace → List RankedPlace
  | [] => []
  | x :: l => insertDesc x (sortDesc l)

/-- Embedding of `rank_places` from place_search.py (`travel_minutes` is
accepted and unused, as in the source): run the loop, then the stable
descending sort; an uncaught exception from a distance lookup propagates. -/
def rank_places (places : List RawPlace) (travel_mode : String)
    (travel_minutes : Int) (lat lng : Option Rat)
    (dist : Nat → Except PyErr (Option Travel)) :
    Except Unit (List RankedPlace) :=
  match processPlaces dist lat lng 0 places with
  | .error e => .error e
  | .ok ranked => .ok (sortDesc ranked)

/-- Python `sep.join(parts)`. -/
def joinSep (sep : String) : List String → String
  | [] => ""
  | [x] => x
  | x :: y :: rest => x ++ sep ++ joinSep sep (y :: rest)

/-- One spoken line of `format_voice_summary`: the `parts` list joined by
`", "` with a trailing period. -/
def lineFor (idx : Nat) (p : RankedPlace) : String :=
  let parts := ["Number " ++ toString idx ++ ", " ++ p.name]
  let parts :=
    if p.rating ≠ 0 then parts ++ ["rated " ++ toString p.rating ++ " stars"]
    else parts
  let parts :=
    match p.travel with
    | some t =>
        if t.duration_text ≠ "" then
          parts ++ ["about " ++ t.duration_text ++ " away"]
        else parts
    | none => parts
  joinSep ", " parts ++ "."

/-- The `enumerate(top_places, start=1)` loop of `format_voice_summary`. -/
def summaryLines : Nat → List RankedPlace → List String
  | _, [] => []
  | idx, p :: rest => lineFor idx p :: summaryLines (idx + 1) rest

/-- Embedding of `format_voice_summary` from place_search.py (`slots` is accepted and
unused, as in the source). -/
def format_voice_summary (top_places : List RankedPlace) (slots : Slots) :
    String :=
  match top_places with
  | [] => "I couldn't find matching restaurants. Want to try a different search?"
  | _ =>
      let intro :=
        if top_places.length = 1 then "I found one spot you might like. "
        else if top_places.length = 2 then
          "Here are two places that fit what you asked for. "
        else "Here are the top three I found. "
      intro ++ joinSep " " (summaryLines 1 top_places) ++ " " ++
        "Want more details on any of these, or should I send the list to your phone?"

/-- Embedding of `x or default` on an optional string (`""` and `None` both fall back). -/
def pyOrStr (o : Option String) (d : String) : String :=
  match o with
  | some v => if v = "" then d else v
  | none => d

/-- Embedding of `int(slots.get("travel_minutes") or 15)` with its `except` fallback to
15; Python's `int()` on a decimal string is modelled by `String.toInt?`. -/
def parseMinutes (o : Option String) : Int :=
  match o with
  | none => 15
  | some v => if v = "" then 15 else (v.toInt?).getD 15

/-- Lines 75–77 of place_search.py: `location_bias` is built only when both
coordinates are truthy (`if lat and lng:`). -/
def bias_of (lat lng : Option Rat) (travel_mode : String) (minutes : Int) :
    Option LocationBias :=
  match lat, lng with
  | some la, some ln =>
      if la ≠ 0 ∧ ln ≠ 0 then some (build_location_bias la ln travel_mode minutes)
      else none
  | _, _ => none

/-- Lines 79–93 of place_search.py: the request body, with the optional
price, bias and open-now entries. -/
def build_search_body (slots : Slots) (location_bias : Option LocationBias) :
    SearchBody :=
  let cuisine := pyOrStr (slotGet slots "cuisine") "restaurant"
  let location_text := pyOrStr (slotGet slots "location") ""
  { textQuery := (cuisine ++ " restaurants in " ++ location_text).trim
    includedType := "restaurant"
    maxResultCount := 15
    strictTypeFiltering := true
    rankPreference := "DISTANCE"
    priceLevels := to_price_levels (slotGet slots "budget")
    locationBias := location_bias
    openNow := decide (slotGet slots "open_now" = some "true") }

/-- Embedding of `search_restaurants` from place_search.py.  The unguarded
`geocode_location` call appears as the `.error` passthrough in the first
`match`: a geocoding exception propagates.  For the `searchText` call, only
a `requests.HTTPError` from the guarded `raise_for_status` yields the
apology dict; an exception from `requests.post` itself or from
`response.json()` propagates (`.error ()`).  An empty `places` list yields
the no-results dict; otherwise ranking runs (an uncaught distance-lookup
exception propagates out of it), and the ranked list, the voice summary and
a fresh id are assembled into the success dict. -/
def search_restaurants (w : HttpWorld) (slots : Slots) :
    Except Unit SearchOutcome :=
  let cuisine := pyOrStr (slotGet slots "cuisine") "restaurant"
  let location_text := pyOrStr (slotGet slots "location") ""
  let travel_mode := pyOrStr (slotGet slots "travel_mode") "walking"
  let travel_minutes := parseMinutes (slotGet slots "travel_minutes")
  match w.geocode with
  | .error e => .error e
  | .ok (lat, lng) =>
      let location_bias := bias_of lat lng travel_mode travel_minutes
      let body := build_search_body slots location_bias
      match w.searchResp body with
      | .error .uncaught => .error ()
      | .error .httpStatus =>
          .ok { success := false, results := [],
                message := some "I couldn't retrieve restaurant data right now. Want to try again?",
                search_id := none, voice_response := none }
      | .ok places =>
          if places = [] then
            .ok { success := false, results := [],
                  message := some ("No " ++ cuisine ++ " spots found near " ++
                    location_text ++ ". Try adjusting your request."),
                  search_id := none, voice_response := none }
          else
            match rank_places places travel_mode travel_minutes lat lng w.dist with
            | .error e => .error e
            | .ok scored =>
                .ok { success := true, results := scored, message := none,
                      search_id := some w.newId,
                      voice_response := some (format_voice_summary (scored.take 3) slots) }

/-! ## Helper lemmas -/

/-- No force-new-search phrase occurs in the empty prompt (every phrase is
non-empty), so the code's `normalized_prompt and any(...)` short-circuit is
equivalent to the unguarded substring test. -/
lemma no_phrase_in_empty :
    ∀ p ∈ FORCE_NEW_SEARCH_PHRASES, strContains "" p = false := by
  decide

/-! ## Claims -/

/-- C2: `should_skip_search` returns true iff the fingerprint is non-empty,
the utterance contains no force-new-search phrase, and the fingerprint
equals the last-recorded one (the empty tuple when none was recorded); in
particular it is false on an empty fingerprint and false when a phrase
occurs. -/
theorem C2_should_skip_search_iff (sess : ConversationSession)
    (prompt : String) :
    (sess.should_skip_search prompt = true ↔
      (sessionSignature sess.slots ≠ [] ∧
       (∀ p ∈ FORCE_NEW_SEARCH_PHRASES, strContains prompt p = false) ∧
       sessionSignature sess.slots = sess.last_search_signature.getD [])) ∧
    (sessionSignature sess.slots = [] → sess.should_skip_search prompt = false) ∧
    ((∃ p ∈ FORCE_NEW_SEARCH_PHRASES, strContains prompt p = true) →
      sess.should_skip_search prompt = false) := by
  by_cases hs : sessionSignature sess.slots = []
  · refine ⟨?_, ?_, ?_⟩
    · simp [ConversationSession.should_skip_search, hs]
    · intro _; simp [ConversationSession.should_skip_search, hs]
    · intro _; simp [ConversationSession.should_skip_search, hs]
  · by_cases hp : ∃ p ∈ FORCE_NEW_SEARCH_PHRASES, strContains prompt p = true
    · have hne : prompt ≠ "" := by
        rintro rfl
        obtain ⟨p, hpmem, hptrue⟩ := hp
        have := no_phrase_in_empty p hpmem
        rw [this] at hptrue
        exact Bool.false_ne_true hptrue
      have hany : FORCE_NEW_SEARCH_PHRASES.any
          (fun p => strContains prompt p) = true := by
        rw [List.any_eq_true]
        exact hp
      refine ⟨?_, ?_, ?_⟩
      · simp only [ConversationSession.should_skip_search, if_neg hs,
          if_pos (And.intro hne hany)]
        constructor
        · intro h; exact absurd h (by simp)
        · rintro ⟨-, hall, -⟩
          obtain ⟨p, hpmem, hptrue⟩ := hp
          rw [hall p hpmem] at hptrue
          exact absurd hptrue (by simp)
      · intro h; exact absurd h hs
      · intro _
        simp only [ConversationSession.should_skip_search, if_neg hs,
          if_pos (And.intro hne hany)]
    · have hany : FORCE_NEW_SEARCH_PHRASES.any
          (fun p => strContains prompt p) = false := by
        rw [Bool.eq_false_iff]
        intro habs
        rw [List.any_eq_true] at habs
        exact hp habs
      have hcond : ¬(prompt ≠ "" ∧ FORCE_NEW_SEARCH_PHRASES.any
          (fun p => strContains prompt p) = true) := by
        rintro ⟨-, h2⟩
        rw [hany] at h2
        exact Bool.false_ne_true h2
      refine ⟨?_, ?_, ?_⟩
      · simp only [ConversationSession.should_skip_search, if_neg hs,
          if_neg hcond, decide_eq_true_eq]
        constructor
        · intro h
          refine ⟨hs, ?_, h⟩
          intro p hpmem
          rw [Bool.eq_false_iff]
          intro habs
          exact hp ⟨p, hpmem, habs⟩
        · rintro ⟨-, -, h⟩; exact h
      · intro h; exact absurd h hs
      · intro habs; exact absurd habs hp

/-- C4: `missing_slots` lists exactly the required slots with a falsy value,
as a sublist of the fixed declaration order; it is empty iff all five
required slots are truthy, and `ready_for_search` holds exactly then. -/
theorem C4_missing_slots_spec (s : Slots) :
    (∀ k, k ∈ missing_slots s ↔
      (k ∈ REQUIRED_FIELDS ∧ pyTruthy (slotGet s k) = false)) ∧
    (missing_slots s).Sublist REQUIRED_FIELDS ∧
    (missing_slots s = [] ↔ ∀ k ∈ REQUIRED_FIELDS, pyTruthy (slotGet s k) = true) ∧
    (ready_for_search s = true ↔ missing_slots s = []) := by
  refine ⟨?_, ?_, ?_, ?_⟩
  · intro k
    simp [missing_slots, List.mem_filter]
  · exact List.filter_sublist _
  · rw [missing_slots, List.filter_eq_nil_iff]
    constructor
    · intro h k hk
      have := h k hk
      simp only [Bool.not_eq_true'] at this
      simpa using this
    · intro h k hk
      simp [h k hk]
  · rw [ready_for_search, List.isEmpty_iff]

/-- A filled-slot session whose fingerprint matches its recorded one. -/
def exSession : ConversationSession :=
  { call_sid := "CA1"
    caller_number := none
    slots := [("cuisine", some "Thai"), ("location", some "Downtown"),
              ("budget", some "$$"), ("travel_mode", some "walking"),
              ("travel_minutes", some "15"), ("open_now", none),
              ("open_until", none)]
    history := []
    last_search_signature := some
      [("cuisine", "thai"), ("location", "downtown"), ("budget", "$$"),
       ("travel_mode", "walking"), ("travel_minutes", "15")]
    last_prompt_text := none
    rcs_sent := false }

/-- Witness for C2: on a session with a recorded matching fingerprint, the
neutral utterance "thanks" is skipped. -/
theorem C2_witness : exSession.should_skip_search "thanks" = true :=
  (C2_should_skip_search_iff exSession "thanks").1.mpr
    ⟨by decide, by decide, by decide⟩

/-- Witness for C4: with only `cuisine` filled, `budget` is missing, and a
fully filled slot dict is ready for search. -/
theorem C4_witness :
    "budget" ∈ missing_slots [("cuisine", some "thai")] ∧
    ready_for_search exSession.slots = true := by
  constructor
  · exact ((C4_missing_slots_spec [("cuisine", some "thai")]).1 "budget").mpr
      ⟨by decide, by decide⟩
  · exact (C4_missing_slots_spec exSession.slots).2.2.2.mpr (by decide)

/-- C9: the location-bias radius is `min (minutes * 80) 5000` for walking
and `min (minutes * 400) 10000` for transit, centered on the coordinates. -/
theorem C9_location_bias_radius (lat lng : Rat) (m : Int) (h : 0 < m) :
    (build_location_bias lat lng "walking" m).radius = min (m * 80) 5000 ∧
    (build_location_bias lat lng "transit" m).radius = min (m * 400) 10000 ∧
    (∀ mode, (build_location_bias lat lng mode m).lat = lat ∧
      (build_location_bias lat lng mode m).lng = lng) := by
  refine ⟨by simp [build_location_bias], by simp [build_location_bias], ?_⟩
  intro mode
  by_cases hm : mode = "walking" <;> simp [build_location_bias, hm]

/-- Witness for C9 at 25 walking-minutes and 25 transit-minutes. -/
theorem C9_witness :
    (0 : Int) < 25 ∧
    ((build_location_bias 1 2 "walking" 25).radius = min (25 * 80) 5000 ∧
     (build_location_bias 1 2 "transit" 25).radius = min (25 * 400) 10000 ∧
     (∀ mode, (build_location_bias 1 2 mode 25).lat = 1 ∧
       (build_location_bias 1 2 mode 25).lng = 2)) :=
  ⟨by decide, C9_location_bias_radius 1 2 25 (by decide)⟩

/-- Lookup in a computed fingerprint (an association list of
key/normalized-value pairs). -/
def sigGet : List (String × String) → String → Option String
  | [], _ => none
  | (k', v) :: rest, k => if k' = k then some v else sigGet rest k

lemma sigFold_congr {g1 g2 : String → Option String} :
    ∀ ks : List String, (∀ k ∈ ks, g1 k = g2 k) →
      sigFold g1 ks = sigFold g2 ks := by
  intro ks
  induction ks with
  | nil => intro _; rfl
  | cons k ks ih =>
      intro h
      have hk := h k (List.mem_cons_self k ks)
      have hrest := ih fun k' hk' => h k' (List.mem_cons_of_mem k hk')
      simp only [sigFold, hk, hrest]

lemma sigGet_sigFold_not_mem {g : String → Option String} {k : String} :
    ∀ ks : List String, k ∉ ks → sigGet (sigFold g ks) k = none := by
  intro ks
  induction ks with
  | nil => intro _; rfl
  | cons k' ks ih =>
      intro h
      have hne : k' ≠ k := fun habs => h (habs ▸ List.mem_cons_self k' ks)
      have hk : k ∉ ks := fun habs => h (List.mem_cons_of_mem k' habs)
      cases hg : g k' with
      | none => simp only [sigFold, hg]; exact ih hk
      | some v => simp only [sigFold, hg, sigGet, if_neg hne]; exact ih hk

lemma sigGet_sigFold {g : String → Option String} {k : String} :
    ∀ ks : List String, ks.Nodup → k ∈ ks →
      sigGet (sigFold g ks) k = g k := by
  intro ks
  induction ks with
  | nil => intro _ h; cases h
  | cons k' ks ih =>
      intro hnd hmem
      rcases List.mem_cons.mp hmem with rfl | hmem'
      · have hk : k ∉ ks := (List.nodup_cons.mp hnd).1
        cases hg : g k with
        | none => simp only [sigFold, hg]; exact sigGet_sigFold_not_mem ks hk
        | some v => simp [sigFold, hg, sigGet]
      · have hne : k' ≠ k := fun habs =>
          (List.nodup_cons.mp hnd).1 (habs ▸ hmem')
        cases hg : g k' with
        | none => simp only [sigFold, hg]; exact ih (List.nodup_cons.mp hnd).2 hmem'
        | some v =>
            simp only [sigFold, hg, sigGet, if_neg hne]
            exact ih (List.nodup_cons.mp hnd).2 hmem'

/-- On a dict with distinct keys, lookup is invariant under permutation of
the binding list. -/
lemma slotGet_perm {s1 s2 : Slots} (h : List.Perm s1 s2)
    (hnd : (s1.map Prod.fst).Nodup) : ∀ k, slotGet s1 k = slotGet s2 k := by
  induction h with
  | nil => intro k; rfl
  | cons x h ih =>
      intro k
      obtain ⟨a, b⟩ := x
      simp only [List.map_cons, List.nodup_cons] at hnd
      simp only [slotGet]
      by_cases hak : a = k
      · simp [hak]
      · simp only [if_neg hak]
        exact ih hnd.2 k
  | swap x y l =>
      intro k
      obtain ⟨a, b⟩ := y
      obtain ⟨c, d⟩ := x
      simp only [List.map_cons, List.nodup_cons, List.mem_cons] at hnd
      have hac : a ≠ c := fun habs => hnd.1 (Or.inl habs)
      simp only [slotGet]
      by_cases hak : a = k
      · rw [if_pos hak, if_neg (hak ▸ fun habs => hac habs.symm : c ≠ k), if_pos hak]
      · by_cases hck : c = k
        · rw [if_neg hak, if_pos hck, if_pos hck]
        · rw [if_neg hak, if_neg hck, if_neg hck, if_neg hak]
  | trans h1 _ ih1 ih2 =>
      intro k
      have hnd2 : (_ : Slots).map Prod.fst |>.Nodup :=
        ((h1.map Prod.fst).nodup_iff).mp hnd
      exact (ih1 hnd k).trans (ih2 hnd2 k)

/-- C3: the fingerprint is an order-independent canonical snapshot of the
seven signature slots: permuting a duplicate-free slot dict leaves it
unchanged, and two fingerprints are equal iff the normalized present value
agrees on every one of the seven keys. -/
theorem C3_signature_canonical (s1 s2 : Slots) :
    (List.Perm s1 s2 → (s1.map Prod.fst).Nodup →
      sessionSignature s1 = sessionSignature s2) ∧
    (sessionSignature s1 = sessionSignature s2 ↔
      ∀ k ∈ SIG_FIELDS, normSlot s1 k = normSlot s2 k) := by
  constructor
  · intro hperm hnd
    apply sigFold_congr
    intro k _
    unfold normSlot
    rw [slotGet_perm hperm hnd k]
  · constructor
    · intro h k hk
      have hnd : SIG_FIELDS.Nodup := by decide
      have e1 := sigGet_sigFold (g := normSlot s1) SIG_FIELDS hnd hk
      have e2 := sigGet_sigFold (g := normSlot s2) SIG_FIELDS hnd hk
      rw [← e1, ← e2]
      unfold sessionSignature at h
      rw [h]
    · intro h
      exact sigFold_congr SIG_FIELDS h

/-- Witness for C3: permuting a two-slot dict leaves the fingerprint
unchanged, and the fingerprint-equality criterion holds between a session
and its normalized variant. -/
theorem C3_witness :
    sessionSignature [("cuisine", some "Thai"), ("location", some "Rome")] =
      sessionSignature [("location", some "Rome"), ("cuisine", some "Thai")] :=
  (C3_signature_canonical
    [("cuisine", some "Thai"), ("location", some "Rome")]
    [("location", some "Rome"), ("cuisine", some "Thai")]).1
    (by decide) (by decide)

lemma slotGet_dictSet (s : Slots) (k : String) (v : Option String) (k' : String) :
    slotGet (dictSet s k v) k' = if k = k' then v else slotGet s k' := by
  induction s with
  | nil => simp [dictSet, slotGet]
  | cons kv rest ih =>
      obtain ⟨a, b⟩ := kv
      by_cases hak : a = k
      · subst hak
        simp only [dictSet, if_pos rfl, slotGet]
        by_cases hk' : a = k' <;> simp [hk']
      · simp only [dictSet, if_neg hak, slotGet]
        by_cases hak' : a = k'
        · subst hak'
          rw [if_pos rfl, if_neg (fun habs => hak habs.symm), if_pos rfl]
        · rw [if_neg hak', ih, if_neg hak']

/-- Updates containing no written value for a key leave that key's slot
unchanged. -/
lemma update_slots_untouched :
    ∀ (u : List (String × Option String)) (s : Slots) (k : String),
      (∀ v, (k, v) ∈ u → updWritten v = false) →
      slotGet (update_slots s u) k = slotGet s k := by
  intro u
  induction u with
  | nil => intro s k _; rfl
  | cons kv rest ih =>
      intro s k h
      obtain ⟨a, b⟩ := kv
      have hrest : ∀ v, (k, v) ∈ rest → updWritten v = false :=
        fun v hv => h v (List.mem_cons_of_mem _ hv)
      show slotGet (update_slots (applyUpdate s (a, b)) rest) k = slotGet s k
      rw [ih (applyUpdate s (a, b)) k hrest]
      unfold applyUpdate
      by_cases hw : updWritten b = true
      · have hak : a ≠ k := by
          rintro rfl
          rw [h b (List.mem_cons_self _ _)] at hw
          exact Bool.false_ne_true hw
        simp only [hw, if_true, slotGet_dictSet, if_neg hak]
      · simp only [Bool.not_eq_true] at hw
        simp [hw]

/-- A written binding for a key in a duplicate-free update dict determines
the key's final slot value. -/
lemma update_slots_written :
    ∀ (u : List (String × Option String)) (s : Slots) (k : String)
      (v : Option String), (u.map Prod.fst).Nodup → (k, v) ∈ u →
      updWritten v = true → slotGet (update_slots s u) k = v := by
  intro u
  induction u with
  | nil => intro s k v _ hmem; cases hmem
  | cons kv rest ih =>
      intro s k v hnd hmem hw
      simp only [List.map_cons, List.nodup_cons] at hnd
      rcases List.mem_cons.mp hmem with heq | hmem'
      · subst heq
        show slotGet (update_slots (applyUpdate s (k, v)) rest) k = v
        have hnotk : ∀ v', (k, v') ∈ rest → updWritten v' = false := by
          intro v' hv'
          exact absurd (List.mem_map_of_mem Prod.fst hv') hnd.1
        rw [update_slots_untouched rest _ k hnotk]
        unfold applyUpdate
        simp only [hw, if_true, slotGet_dictSet, if_pos rfl]
      · exact ih (applyUpdate s kv) k v hnd.2 hmem' hw

/-- Embedding of `update_slots` never turns a truthy slot falsy. -/
lemma update_slots_truthy_mono :
    ∀ (u : List (String × Option String)) (s : Slots) (k : String),
      pyTruthy (slotGet s k) = true →
      pyTruthy (slotGet (update_slots s u) k) = true := by
  intro u
  induction u with
  | nil => intro s k h; exact h
  | cons kv rest ih =>
      intro s k h
      obtain ⟨a, b⟩ := kv
      show pyTruthy (slotGet (update_slots (applyUpdate s (a, b)) rest) k) = true
      apply ih
      unfold applyUpdate
      by_cases hw : updWritten b = true
      · simp only [hw, if_true, slotGet_dictSet]
        by_cases hak : a = k
        · rw [if_pos hak]
          cases b with
          | none => cases hw
          | some str =>
              simp only [updWritten, decide_eq_true_eq] at hw
              simp [pyTruthy, hw]
        · rw [if_neg hak]; exact h
      · simp only [Bool.not_eq_true] at hw
        simp only [hw, Bool.false_eq_true, if_false]
        exact h

/-- C5: `update_slots` is last-write-wins on written (non-absent) update
values: a written binding in a duplicate-free update dict determines the new
slot value; keys with no written binding — in particular keys updated only
with `None`/empty values — keep their old value; and a truthy slot never
becomes falsy. -/
theorem C5_update_slots_spec (s : Slots) (u : List (String × Option String))
    (k : String) :
    ((u.map Prod.fst).Nodup → ∀ v, (k, v) ∈ u → updWritten v = true →
      slotGet (update_slots s u) k = v) ∧
    ((∀ v, (k, v) ∈ u → updWritten v = false) →
      slotGet (update_slots s u) k = slotGet s k) ∧
    (pyTruthy (slotGet s k) = true →
      pyTruthy (slotGet (update_slots s u) k) = true) :=
  ⟨fun hnd v hmem hw => update_slots_written u s k v hnd hmem hw,
   fun h => update_slots_untouched u s k h,
   fun h => update_slots_truthy_mono u s k h⟩

/-- Witness for C5 on a concrete dict: a written value overwrites, an
absent value does not clear, and truthiness is kept. -/
theorem C5_witness :
    slotGet (update_slots [("cuisine", some "thai")]
      [("cuisine", some "sushi"), ("location", none)]) "cuisine" =
        some "sushi" ∧
    slotGet (update_slots [("cuisine", some "thai")] [("cuisine", none)])
      "cuisine" = some "thai" ∧
    pyTruthy (slotGet (update_slots [("cuisine", some "thai")]
      [("cuisine", some "sushi"), ("location", none)]) "cuisine") = true := by
  refine ⟨?_, ?_, ?_⟩
  · exact (C5_update_slots_spec [("cuisine", some "thai")]
      [("cuisine", some "sushi"), ("location", none)] "cuisine").1
      (by decide) (some "sushi") (by decide) (by decide)
  · refine (C5_update_slots_spec [("cuisine", some "thai")]
      [("cuisine", none)] "cuisine").2.1 ?_
    intro v hv
    have hvnone : v = none := by
      simp only [List.mem_singleton, Prod.mk.injEq] at hv
      exact hv.2
    rw [hvnone]; rfl
  · exact (C5_update_slots_spec [("cuisine", some "thai")]
      [("cuisine", some "sushi"), ("location", none)] "cuisine").2.2 (by decide)

/-- The slot-set invariant of §3 of the design: every slot value is absent
(`None` missing-key lookups included) or a non-empty string. -/
def SlotInv (s : Slots) : Prop := ∀ k, slotGet s k ≠ some ""

lemma slotInv_default : SlotInv defaultSlots := by
  intro k
  simp only [defaultSlots, slotGet]
  split_ifs <;> simp

lemma slotInv_update (s : Slots) (u : List (String × Option String))
    (h : SlotInv s) : SlotInv (update_slots s u) := by
  induction u generalizing s with
  | nil => exact h
  | cons kv rest ih =>
      obtain ⟨a, b⟩ := kv
      show SlotInv (update_slots (applyUpdate s (a, b)) rest)
      apply ih
      intro k
      unfold applyUpdate
      by_cases hw : updWritten b = true
      · simp only [hw, if_true, slotGet_dictSet]
        by_cases hak : a = k
        · rw [if_pos hak]
          cases b with
          | none => cases hw
          | some str =>
              simp only [updWritten, decide_eq_true_eq] at hw
              simp [hw]
        · rw [if_neg hak]; exact h k
      · simp only [Bool.not_eq_true] at hw
        simp only [hw, Bool.false_eq_true, if_false]
        exact h k

/-- C6: session operations preserve the invariant that each slot value is
absent or a non-empty string: the default slot dict satisfies it,
`update_slots` preserves it, a single `None` or `""` update value is a
complete no-op (treated as absent, never stored, never clearing), and the
other session operations do not touch the slots. -/
theorem C6_slot_value_invariant (sess : ConversationSession)
    (u : List (String × Option String)) (role content prompt k : String)
    (h : SlotInv sess.slots) :
    SlotInv ((sess.updateSlots u).slots) ∧
    sess.updateSlots [(k, none)] = sess ∧
    sess.updateSlots [(k, some "")] = sess ∧
    (sess.appendHistory role content).slots = sess.slots ∧
    (sess.markSearch prompt).slots = sess.slots ∧
    SlotInv defaultSlots := by
  refine ⟨slotInv_update sess.slots u h, ?_, ?_, rfl, rfl, slotInv_default⟩
  · show { sess with slots := update_slots sess.slots [(k, none)] } = sess
    have : update_slots sess.slots [(k, none)] = sess.slots := rfl
    rw [this]
  · show { sess with slots := update_slots sess.slots [(k, some "")] } = sess
    have : update_slots sess.slots [(k, some "")] = sess.slots := by
      show applyUpdate sess.slots (k, some "") = sess.slots
      unfold applyUpdate updWritten
      simp
    rw [this]

/-- The session `SessionStore.get` creates on first reference: default
slots, empty history, nothing recorded. -/
def freshSession : ConversationSession :=
  { call_sid := "CA3", caller_number := none, slots := defaultSlots,
    history := [], last_search_signature := none, last_prompt_text := none,
    rcs_sent := false }

/-- Witness for C6 on the freshly created session of `SessionStore.get`. -/
theorem C6_witness :
    SlotInv ((freshSession.updateSlots
      [("cuisine", some "thai"), ("budget", some "")]).slots) :=
  (C6_slot_value_invariant freshSession
    [("cuisine", some "thai"), ("budget", some "")]
    "user" "hi" "prompt" "k" slotInv_default).1

lemma insertDesc_perm (x : RankedPlace) (l : List RankedPlace) :
    List.Perm (insertDesc x l) (x :: l) := by
  induction l with
  | nil => exact .refl _
  | cons y l ih =>
      unfold insertDesc
      by_cases h : y.score ≤ x.score
      · rw [if_pos h]
      · rw [if_neg h]
        exact (ih.cons y).trans (List.Perm.swap x y l)

lemma sortDesc_perm (l : List RankedPlace) : List.Perm (sortDesc l) l := by
  induction l with
  | nil => exact .refl _
  | cons x l ih => exact (insertDesc_perm x (sortDesc l)).trans (ih.cons x)

lemma pairwise_insertDesc (x : RankedPlace) (l : List RankedPlace)
    (h : l.Pairwise (fun a b => b.score ≤ a.score)) :
    (insertDesc x l).Pairwise (fun a b => b.score ≤ a.score) := by
  induction l with
  | nil => simp [insertDesc]
  | cons y l ih =>
      rcases List.pairwise_cons.mp h with ⟨hy, hl⟩
      unfold insertDesc
      by_cases hc : y.score ≤ x.score
      · rw [if_pos hc]
        refine List.pairwise_cons.mpr ⟨?_, h⟩
        intro z hz
        rcases List.mem_cons.mp hz with rfl | hz'
        · exact hc
        · exact le_trans (hy z hz') hc
      · rw [if_neg hc]
        refine List.pairwise_cons.mpr ⟨?_, ih hl⟩
        intro z hz
        rcases List.mem_cons.mp ((insertDesc_perm x l).mem_iff.mp hz)
          with rfl | hz'
        · exact (lt_of_not_le hc).le
        · exact hy z hz'

lemma sortDesc_pairwise (l : List RankedPlace) :
    (sortDesc l).Pairwise (fun a b => b.score ≤ a.score) := by
  induction l with
  | nil => simp [sortDesc]
  | cons x l ih => exact pairwise_insertDesc x (sortDesc l) ih

lemma filter_insertDesc (c : Rat) (x : RankedPlace) (l : List RankedPlace) :
    (insertDesc x l).filter (fun p => decide (p.score = c)) =
      if x.score = c then x :: l.filter (fun p => decide (p.score = c))
      else l.filter (fun p => decide (p.score = c)) := by
  induction l with
  | nil =>
      by_cases h : x.score = c <;> simp [insertDesc, h]
  | cons y l ih =>
      unfold insertDesc
      by_cases hc : y.score ≤ x.score
      · rw [if_pos hc]
        by_cases hx : x.score = c <;> simp [List.filter_cons, hx]
      · rw [if_neg hc]
        by_cases hy : y.score = c
        · by_cases hx : x.score = c
          · exact absurd (le_of_eq (hy.trans hx.symm)) hc
          · simp [List.filter_cons, hy, hx, ih]
        · simp [List.filter_cons, hy, ih]

lemma filter_sortDesc (c : Rat) (l : List RankedPlace) :
    (sortDesc l).filter (fun p => decide (p.score = c)) =
      l.filter (fun p => decide (p.score = c)) := by
  induction l with
  | nil => rfl
  | cons x l ih =>
      show (insertDesc x (sortDesc l)).filter _ = _
      rw [filter_insertDesc]
      by_cases hx : x.score = c <;> simp [List.filter_cons, hx, ih]

/-- C7: `rank_places` is a stable descending sort by the documented score.
Whenever the candidate-building loop completes (no uncaught distance-lookup
exception), `rank_places` returns its stable descending sort: pairwise
non-increasing in score, a permutation of the processed candidate list that
preserves, for every score value, the provider-returned relative order
(equal filtered sublists); the score is `rating * 2` adjusted by `+1/2`
above 100 reviews and `-1/2` below 10; an otherwise-identical candidate
pair with 150 and 0 reviews differs in score by exactly 1; and the
4.5-star/120-review vs 3.0-star/5-review example scores 9.5 vs 5.5 and
ranks in that order. -/
theorem C7_rank_places_spec (places : List RawPlace) (mode : String)
    (mins : Int) (lat lng : Option Rat)
    (dist : Nat → Except PyErr (Option Travel)) :
    (∀ mid, processPlaces dist lat lng 0 places = .ok mid →
      rank_places places mode mins lat lng dist = .ok (sortDesc mid) ∧
      (sortDesc mid).Pairwise (fun a b => b.score ≤ a.score) ∧
      List.Perm (sortDesc mid) mid ∧
      (∀ c : Rat, (sortDesc mid).filter (fun p => decide (p.score = c)) =
        mid.filter (fun p => decide (p.score = c)))) ∧
    (∀ out, rank_places places mode mins lat lng dist = .ok out →
      out.Pairwise (fun a b => b.score ≤ a.score)) ∧
    (∀ p : RawPlace, scorePlace p = ratingOf p * 2 +
      (if reviewsOf p > 100 then (1 : Rat)/2
       else if reviewsOf p < 10 then -(1/2) else 0)) ∧
    (∀ p : RawPlace,
      scorePlace { p with userRatingCount := some 150 } =
        scorePlace { p with userRatingCount := some 0 } + 1) ∧
    (rank_places
        [{ displayName := some "A", formattedAddress := none,
           rating := some (9/2), userRatingCount := some 120,
           priceLevel := none, location := none },
         { displayName := some "B", formattedAddress := none,
           rating := some 3, userRatingCount := some 5,
           priceLevel := none, location := none }]
        "walking" 15 none none (fun _ => .ok none)).map
          (fun l => l.map (fun p => (p.name, p.score))) =
      .ok [("A", 19/2), ("B", 11/2)] := by
  refine ⟨?_, ?_, ?_, ?_, ?_⟩
  · intro mid hmid
    refine ⟨?_, sortDesc_pairwise mid, sortDesc_perm mid,
      fun c => filter_sortDesc c mid⟩
    unfold rank_places
    rw [hmid]
  · intro out hout
    unfold rank_places at hout
    cases hmid : processPlaces dist lat lng 0 places with
    | error e => rw [hmid] at hout; cases hout
    | ok mid =>
        rw [hmid] at hout
        cases hout
        exact sortDesc_pairwise mid
  · intro p
    unfold scorePlace
    split_ifs <;> ring
  · intro p
    simp only [scorePlace, reviewsOf, ratingOf]
    norm_num
    ring
  · norm_num [rank_places, processPlaces, mkRanked, scorePlace, ratingOf,
      reviewsOf, sortDesc, insertDesc]
    rfl

/-- Witness for C7: on a dist oracle that never raises and two candidates
without locations, the loop completes and the sorted output is returned. -/
theorem C7_witness :
    rank_places [] "walking" 15 none none (fun _ => .ok none) =
      .ok (sortDesc []) ∧
    (sortDesc ([] : List RankedPlace)).Pairwise
      (fun a b => b.score ≤ a.score) ∧
    List.Perm (sortDesc ([] : List RankedPlace)) [] ∧
    (∀ c : Rat, (sortDesc ([] : List RankedPlace)).filter
        (fun p => decide (p.score = c)) =
      ([] : List RankedPlace).filter (fun p => decide (p.score = c))) :=
  (C7_rank_places_spec [] "walking" 15 none none (fun _ => .ok none)).1 [] rfl

/-- C8: `format_voice_summary` yields the fixed no-match message (and
nothing else) on zero candidates; on 1, 2, and 3-or-more candidates it opens
with the respective fixed clause, then the per-candidate lines joined by
spaces and the fixed closing prompt; each line carries the rating clause
exactly when the rating is non-zero and the travel clause exactly when a
travel estimate with a non-empty duration is present. -/
theorem C8_format_voice_summary_spec :
    (∀ slots : Slots, format_voice_summary [] slots =
      "I couldn't find matching restaurants. Want to try a different search?") ∧
    (∀ (slots : Slots) (tops : List RankedPlace), tops ≠ [] →
      ∃ intro, format_voice_summary tops slots =
        intro ++ joinSep " " (summaryLines 1 tops) ++ " " ++
          "Want more details on any of these, or should I send the list to your phone?") ∧
    (∀ (slots : Slots) (p : RankedPlace), ∃ rest,
      format_voice_summary [p] slots =
        "I found one spot you might like. " ++ rest) ∧
    (∀ (slots : Slots) (p q : RankedPlace), ∃ rest,
      format_voice_summary [p, q] slots =
        "Here are two places that fit what you asked for. " ++ rest) ∧
    (∀ (slots : Slots) (p q r : RankedPlace) (l : List RankedPlace), ∃ rest,
      format_voice_summary (p :: q :: r :: l) slots =
        "Here are the top three I found. " ++ rest) ∧
    (∀ (idx : Nat) (p : RankedPlace), p.rating = 0 → p.travel = none →
      lineFor idx p =
        ("Number " ++ toString idx ++ ", " ++ p.name) ++ ".") ∧
    (∀ (idx : Nat) (p : RankedPlace), p.rating ≠ 0 → p.travel = none →
      lineFor idx p =
        ("Number " ++ toString idx ++ ", " ++ p.name) ++ ", " ++
          ("rated " ++ toString p.rating ++ " stars") ++ ".") ∧
    (∀ (idx : Nat) (p : RankedPlace) (t : Travel), p.rating = 0 →
      p.travel = some t → t.duration_text ≠ "" →
      lineFor idx p =
        ("Number " ++ toString idx ++ ", " ++ p.name) ++ ", " ++
          ("about " ++ t.duration_text ++ " away") ++ ".") ∧
    (∀ (idx : Nat) (p : RankedPlace) (t : Travel), p.rating ≠ 0 →
      p.travel = some t → t.duration_text ≠ "" →
      lineFor idx p =
        ("Number " ++ toString idx ++ ", " ++ p.name) ++ ", " ++
          (("rated " ++ toString p.rating ++ " stars") ++ ", " ++
            ("about " ++ t.duration_text ++ " away")) ++ ".") ∧
    (∀ (idx : Nat) (p : RankedPlace) (t : Travel), p.travel = some t →
      t.duration_text = "" → lineFor idx p = lineFor idx { p with travel := none }) := by
  refine ⟨fun _ => rfl, ?_, ?_, ?_, ?_, ?_, ?_, ?_, ?_, ?_⟩
  · intro slots tops hne
    cases tops with
    | nil => exact absurd rfl hne
    | cons p rest => exact ⟨_, rfl⟩
  · intro slots p
    refine ⟨joinSep " " (summaryLines 1 [p]) ++ (" " ++
      "Want more details on any of these, or should I send the list to your phone?"), ?_⟩
    show _ ++ _ ++ _ ++ _ = _
    rw [String.append_assoc, String.append_assoc]
    simp
  · intro slots p q
    refine ⟨joinSep " " (summaryLines 1 [p, q]) ++ (" " ++
      "Want more details on any of these, or should I send the list to your phone?"), ?_⟩
    show _ ++ _ ++ _ ++ _ = _
    rw [String.append_assoc, String.append_assoc]
    simp
  · intro slots p q r l
    refine ⟨joinSep " " (summaryLines 1 (p :: q :: r :: l)) ++ (" " ++
      "Want more details on any of these, or should I send the list to your phone?"), ?_⟩
    show _ ++ _ ++ _ ++ _ = _
    rw [String.append_assoc, String.append_assoc]
    simp
  · intro idx p h0 ht
    simp [lineFor, h0, ht, joinSep]
  · intro idx p h0 ht
    simp [lineFor, h0, ht, joinSep]
  · intro idx p t h0 ht hd
    simp [lineFor, h0, ht, hd, joinSep]
  · intro idx p t h0 ht hd
    simp [lineFor, h0, ht, hd, joinSep]
  · intro idx p t ht hd
    simp [lineFor, ht, hd, joinSep]

/-- Two ranked example candidates: 4.5 stars with 120 reviews (score 9.5)
and 3.0 stars with 5 reviews (score 5.5). -/
def exRankedA : RankedPlace :=
  { name := "A", address := "x", rating := 9/2, user_rating_count := 120,
    price_level := none, score := 19/2, travel := none }

/-- See `exRankedA`. -/
def exRankedB : RankedPlace :=
  { name := "B", address := "y", rating := 3, user_rating_count := 5,
    price_level := none, score := 11/2, travel := none }

/-- An unrated example candidate. -/
def exRankedC : RankedPlace :=
  { name := "C", address := "z", rating := 0, user_rating_count := 0,
    price_level := none, score := 0, travel := none }

/-- Witness for C8: the two-candidate example (9.5 and 5.5 scores, the
first rated 4.5) produces the two-place opening, and a rating-0 candidate's
line has no rating clause. -/
theorem C8_witness :
    (∃ rest, format_voice_summary [exRankedA, exRankedB] [] =
      "Here are two places that fit what you asked for. " ++ rest) ∧
    lineFor 1 exRankedC =
      ("Number " ++ toString (1 : Nat) ++ ", " ++ exRankedC.name) ++ "." := by
  constructor
  · exact C8_format_voice_summary_spec.2.2.2.1 [] exRankedA exRankedB
  · exact C8_format_voice_summary_spec.2.2.2.2.2.1 1 exRankedC rfl rfl

lemma bias_of_falsy (la ln : Option Rat)
    (h : (pyTruthyCoord la && pyTruthyCoord ln) = false)
    (mode : String) (mins : Int) : bias_of la ln mode mins = none := by
  match la, ln with
  | none, _ => rfl
  | some a, none => rfl
  | some a, some b =>
      simp only [pyTruthyCoord, Bool.and_eq_false_iff, decide_eq_false_iff_not,
        not_not] at h
      show (if a ≠ 0 ∧ b ≠ 0 then some (build_location_bias a b mode mins)
        else none) = none
      rw [if_neg]
      rintro ⟨h1, h2⟩
      rcases h with h0 | h0
      · exact h1 h0
      · exact h2 h0

lemma processPlaces_falsy (dist : Nat → Except PyErr (Option Travel))
    (la ln : Option Rat) (h : (pyTruthyCoord la && pyTruthyCoord ln) = false) :
    ∀ (i : Nat) (ps : List RawPlace),
      processPlaces dist la ln i ps = processPlaces dist none none i ps := by
  intro i ps
  induction ps generalizing i with
  | nil => rfl
  | cons p rest ih =>
      simp only [processPlaces, h, Bool.false_eq_true, if_false]
      rw [ih]
      rfl

lemma processPlaces_no_travel (dist : Nat → Except PyErr (Option Travel))
    (la ln : Option Rat) (h : (pyTruthyCoord la && pyTruthyCoord ln) = false) :
    ∀ (i : Nat) (ps : List RawPlace) (l : List RankedPlace),
      processPlaces dist la ln i ps = .ok l → ∀ p ∈ l, p.travel = none := by
  intro i ps
  induction ps generalizing i with
  | nil =>
      intro l hl p hp
      cases hl
      cases hp
  | cons q rest ih =>
      intro l hl p hp
      simp only [processPlaces, h, Bool.false_eq_true, if_false] at hl
      cases hrec : processPlaces dist la ln (i + 1) rest with
      | error e => rw [hrec] at hl; cases hl
      | ok l' =>
          rw [hrec] at hl
          cases hl
          rcases List.mem_cons.mp hp with rfl | hp'
          · rfl
          · exact ih (i + 1) l' hrec p hp'

lemma rank_places_falsy (places : List RawPlace) (mode : String) (mins : Int)
    (la ln : Option Rat) (dist : Nat → Except PyErr (Option Travel))
    (h : (pyTruthyCoord la && pyTruthyCoord ln) = false) :
    rank_places places mode mins la ln dist =
      rank_places places mode mins none none dist := by
  unfold rank_places
  rw [processPlaces_falsy dist la ln h 0 places]

/-- A ranking that succeeded sorted a successfully built candidate list. -/
lemma rank_places_ok (places : List RawPlace) (mode : String) (mins : Int)
    (la ln : Option Rat) (dist : Nat → Except PyErr (Option Travel))
    (scored : List RankedPlace)
    (hr : rank_places places mode mins la ln dist = .ok scored) :
    ∃ mid, processPlaces dist la ln 0 places = .ok mid ∧
      scored = sortDesc mid := by
  unfold rank_places at hr
  cases hmid : processPlaces dist la ln 0 places with
  | error e => rw [hmid] at hr; cases hr
  | ok mid =>
      rw [hmid] at hr
      cases hr
      exact ⟨mid, rfl, rfl⟩

/-- C10: when geocoding yields a latitude or longitude that is `0.0` or
missing, `search_restaurants` behaves exactly as when geocoding returned no
coordinates at all: the built location bias is `none` (so the request body
carries no `locationBias`), the whole search result is identical to the
no-coordinates run (no distance call is made in either), and every returned
candidate lacks a travel estimate. -/
theorem C10_falsy_coords (w : HttpWorld) (s : Slots) (la ln : Option Rat)
    (hg : w.geocode = .ok (la, ln))
    (hfalsy : (pyTruthyCoord la && pyTruthyCoord ln) = false) :
    search_restaurants w s =
      search_restaurants { w with geocode := .ok (none, none) } s ∧
    bias_of la ln (pyOrStr (slotGet s "travel_mode") "walking")
      (parseMinutes (slotGet s "travel_minutes")) = none ∧
    (build_search_body s (bias_of la ln
      (pyOrStr (slotGet s "travel_mode") "walking")
      (parseMinutes (slotGet s "travel_minutes")))).locationBias = none ∧
    (∀ r, search_restaurants w s = .ok r → ∀ p ∈ r.results, p.travel = none) := by
  have hbias := bias_of_falsy la ln hfalsy
    (pyOrStr (slotGet s "travel_mode") "walking")
    (parseMinutes (slotGet s "travel_minutes"))
  refine ⟨?_, hbias, by rw [hbias]; rfl, ?_⟩
  · simp only [search_restaurants, hg, hbias]
    have hbias0 : bias_of none none
        (pyOrStr (slotGet s "travel_mode") "walking")
        (parseMinutes (slotGet s "travel_minutes")) = none := rfl
    rw [hbias0]
    cases hresp : w.searchResp (build_search_body s none) with
    | error e => cases e <;> rfl
    | ok places =>
        by_cases hp : places = []
        · simp [hp]
        · simp only [hp, if_false, if_neg hp]
          rw [rank_places_falsy _ _ _ _ _ _ hfalsy]
  · intro r hr p hp
    simp only [search_restaurants, hg, hbias] at hr
    cases hresp : w.searchResp (build_search_body s none) with
    | error e =>
        rw [hresp] at hr
        cases e
        · cases hr
          cases hp
        · cases hr
    | ok places =>
        rw [hresp] at hr
        by_cases hps : places = []
        · simp only [hps, if_pos rfl] at hr
          cases hr
          cases hp
        · simp only [hps, if_neg hps] at hr
          cases hrank : rank_places places
              (pyOrStr (slotGet s "travel_mode") "walking")
              (parseMinutes (slotGet s "travel_minutes")) la ln w.dist with
          | error e => rw [hrank] at hr; cases hr
          | ok scored =>
              rw [hrank] at hr
              cases hr
              obtain ⟨mid, hmid, rfl⟩ := rank_places_ok _ _ _ _ _ _ _ hrank
              have hp' := (sortDesc_perm _).mem_iff.mp hp
              exact processPlaces_no_travel w.dist la ln hfalsy 0 places mid
                hmid p hp'

/-- An example raw provider place with coordinates. -/
def exRawPlace : RawPlace :=
  { displayName := some "A", formattedAddress := some "addr",
    rating := some 4, userRatingCount := some 50, priceLevel := none,
    location := some (some 1, some 2) }

/-- A world whose geocoder returns latitude exactly 0. -/
def wZeroCoords : HttpWorld :=
  { geocode := .ok (some 0, some 1),
    searchResp := fun _ => .ok [exRawPlace],
    dist := fun _ => .ok (some ⟨"1 km", "12 mins"⟩),
    newId := "id-2" }

/-- Witness for C10: with latitude exactly 0 the search behaves as with no
coordinates, builds no bias, and yields candidates without travel. -/
theorem C10_witness :
    search_restaurants wZeroCoords defaultSlots =
      search_restaurants ({ wZeroCoords with geocode := .ok (none, none) })
        defaultSlots ∧
    bias_of (some 0) (some 1)
      (pyOrStr (slotGet defaultSlots "travel_mode") "walking")
      (parseMinutes (slotGet defaultSlots "travel_minutes")) = none ∧
    (build_search_body defaultSlots (bias_of (some 0) (some 1)
      (pyOrStr (slotGet defaultSlots "travel_mode") "walking")
      (parseMinutes (slotGet defaultSlots "travel_minutes")))).locationBias =
        none ∧
    (∀ r, search_restaurants wZeroCoords defaultSlots = .ok r →
      ∀ p ∈ r.results, p.travel = none) :=
  C10_falsy_coords wZeroCoords defaultSlots (some 0) (some 1) (by rfl) (by decide)

/-- A travel computation whose oracle does not fail uncaught returns a
value (the caught `HTTPError` channel and malformed data both degrade to
`none`). -/
lemma compute_travel_ok (resp : Except PyErr (Option Travel))
    (h : resp ≠ .error .uncaught) (a b : Option Rat) :
    ∃ t, compute_travel_duration resp a b = .ok t := by
  cases a with
  | none => exact ⟨none, rfl⟩
  | some a' =>
      cases b with
      | none => exact ⟨none, rfl⟩
      | some b' =>
          cases resp with
          | ok d => exact ⟨d, rfl⟩
          | error e =>
              cases e with
              | httpStatus => exact ⟨none, rfl⟩
              | uncaught => exact absurd rfl h

/-- If no distance call fails uncaught, the candidate-building loop
completes. -/
lemma processPlaces_ok (dist : Nat → Except PyErr (Option Travel))
    (hd : ∀ i, dist i ≠ .error .uncaught) (lat lng : Option Rat) :
    ∀ (i : Nat) (ps : List RawPlace),
      ∃ l, processPlaces dist lat lng i ps = .ok l := by
  intro i ps
  induction ps generalizing i with
  | nil => exact ⟨[], rfl⟩
  | cons p rest ih =>
      obtain ⟨l, hl⟩ := ih (i + 1)
      simp only [processPlaces]
      by_cases hc : (pyTruthyCoord lat && pyTruthyCoord lng) = true
      · rw [if_pos hc]
        cases hloc : p.location with
        | none => rw [hl]; exact ⟨_, rfl⟩
        | some dd =>
            obtain ⟨dla, dln⟩ := dd
            obtain ⟨t, ht⟩ := compute_travel_ok (dist i) (hd i) dla dln
            simp only [ht, hl]
            exact ⟨_, rfl⟩
      · rw [if_neg hc, hl]
        exact ⟨_, rfl⟩

/-- A world whose geocoding HTTP call raises. -/
def wGeoFail : HttpWorld :=
  { geocode := .error (), searchResp := fun _ => .ok [],
    dist := fun _ => .ok none, newId := "id-3" }

/-- A world whose geocoding succeeds but whose text-search interaction
fails outside the guarded channel (`requests.post` itself raising a
timeout/connection error, or `response.json()` raising). -/
def wPostRaise : HttpWorld :=
  { geocode := .ok (none, none), searchResp := fun _ => .error .uncaught,
    dist := fun _ => .ok none, newId := "id-5" }

/-- A world where geocoding and the text search succeed, with truthy
coordinates and a located candidate, but the distance-matrix interaction
fails outside the guarded channel. -/
def wDistRaise : HttpWorld :=
  { geocode := .ok (some 1, some 2),
    searchResp := fun _ => .ok [exRawPlace],
    dist := fun _ => .error .uncaught, newId := "id-6" }

/-- C1 counterexample: `search_restaurants` does not convert every HTTP
failure into a structured value.  A geocoding failure propagates
(`geocode_location`'s `raise_for_status` sits in no try/except), and so do
a non-`HTTPError` text-search transport failure and a non-`HTTPError`
distance-lookup failure during ranking: each run ends in `.error`, never in
a `success = false` dict. -/
theorem C1_counterexample :
    (search_restaurants wGeoFail [] = .error () ∧
     ∀ r : SearchOutcome, search_restaurants wGeoFail [] ≠ .ok r) ∧
    search_restaurants wPostRaise [] = .error () ∧
    search_restaurants wDistRaise [] = .error () := by
  refine ⟨⟨rfl, ?_⟩, rfl, ?_⟩
  · intro r h
    rw [show search_restaurants wGeoFail [] = .error () from rfl] at h
    exact Except.noConfusion h
  · norm_num [search_restaurants, wDistRaise, exRawPlace, rank_places,
      processPlaces, pyTruthyCoord, compute_travel_duration]

/-- The apology dict returned on a caught `places:searchText` status
failure. -/
def transportFailureOutcome : SearchOutcome :=
  { success := false, results := [],
    message := some "I couldn't retrieve restaurant data right now. Want to try again?",
    search_id := none, voice_response := none }

/-- C1 (amended): only the `requests.HTTPError` raised by the guarded
`raise_for_status` calls is converted: provided geocoding succeeds and
neither the text-search nor any distance interaction fails outside that
channel, `search_restaurants` returns a structured value; a caught
text-search status failure yields the `success = false` apology dict; a
caught distance status failure silently degrades that candidate's travel to
`none`.  Every other transport failure — the geocoding call entirely,
`requests.post`/`requests.get` themselves raising, `response.json()` — 
propagates as an exception (see the counterexample). -/
theorem C1_search_failure_amended (w : HttpWorld) (s : Slots)
    (g : Option Rat × Option Rat) (hg : w.geocode = .ok g)
    (hs : ∀ b, w.searchResp b ≠ .error .uncaught)
    (hd : ∀ i, w.dist i ≠ .error .uncaught) :
    (∃ r, search_restaurants w s = .ok r) ∧
    ((∀ b, w.searchResp b = .error .httpStatus) →
      search_restaurants w s = .ok transportFailureOutcome) ∧
    (∀ la lb : Rat, compute_travel_duration (.error .httpStatus)
      (some la) (some lb) = .ok none) := by
  obtain ⟨la, ln⟩ := g
  refine ⟨?_, ?_, fun _ _ => rfl⟩
  · simp only [search_restaurants, hg]
    cases hresp : w.searchResp (build_search_body s (bias_of la ln
        (pyOrStr (slotGet s "travel_mode") "walking")
        (parseMinutes (slotGet s "travel_minutes")))) with
    | error e =>
        cases e with
        | httpStatus => exact ⟨_, rfl⟩
        | uncaught => exact absurd hresp (hs _)
    | ok places =>
        by_cases hp : places = []
        · simp only [hp, if_pos rfl]
          exact ⟨_, rfl⟩
        · simp only [if_neg hp]
          obtain ⟨mid, hmid⟩ := processPlaces_ok w.dist hd la ln 0 places
          have hrank : rank_places places
              (pyOrStr (slotGet s "travel_mode") "walking")
              (parseMinutes (slotGet s "travel_minutes")) la ln w.dist =
              .ok (sortDesc mid) := by
            unfold rank_places
            rw [hmid]
          rw [hrank]
          exact ⟨_, rfl⟩
  · intro hfail
    simp only [search_restaurants, hg, hfail]
    rfl

/-- A world with working geocoding whose text-search call fails on the
caught `raise_for_status` channel. -/
def wSearchFail : HttpWorld :=
  { geocode := .ok (none, none), searchResp := fun _ => .error .httpStatus,
    dist := fun _ => .ok none, newId := "id-4" }

/-- Witness for the amended C1: a caught text-search status failure yields
the structured apology failure. -/
theorem C1_witness :
    search_restaurants wSearchFail [] = .ok transportFailureOutcome :=
  (C1_search_failure_amended wSearchFail [] (none, none) rfl
    (fun _ h => PyErr.noConfusion (Except.error.inj h))
    (fun _ h => Except.noConfusion h)).2.1 (fun _ => rfl)
